import Mathlib

/-!
Verification development for the mtf_breakout crypto strategy repository.

The Python source is shallowly embedded: prices are rationals, candle
series are lists ordered as in the source dataframes, fallible lookups
return Option.  Each definition is translated from the named source
function; theorems settle the specification claims about them.
-/

set_option maxRecDepth 8000

namespace MtfBreakout

/-- A single OHLCV candle (src/mtf_breakout data model).  Timestamps are
in minutes (the 5m base interval is 5 units). -/
structure Candle where
  ts : ℕ
  openPrice : ℚ
  high : ℚ
  low : ℚ
  close : ℚ
  volume : ℚ
deriving DecidableEq

/-- The strategy-relevant fields of config.Settings. -/
structure Settings where
  dwell_bars : ℕ
  touch_separation_bars : ℕ
  retest_window_bars : ℕ
  touch_buffer_frac : ℚ
  breakout_buffer_frac : ℚ
  atr_tight_mult : ℚ
deriving DecidableEq

/-- zones.Zone dataclass. -/
structure Zone where
  start_idx : ℕ
  end_idx : ℕ
  low_close : ℚ
  high_close : ℚ
  width : ℚ
  touches_top : ℕ
  touches_bottom : ℕ
  total_touches : ℕ
  atr : ℚ
  dwell_bars : ℕ
deriving DecidableEq

/-- Maximum of two rationals, by the decidable order (kernel-reducible). -/
def qmax (a b : ℚ) : ℚ := if a ≤ b then b else a

/-- Minimum of two rationals, by the decidable order (kernel-reducible). -/
def qmin (a b : ℚ) : ℚ := if a ≤ b then a else b

/-- Absolute value of a rational (kernel-reducible). -/
def qabs (a : ℚ) : ℚ := if a ≤ 0 then -a else a

/-- Minimum of a list of rationals, none when empty. -/
def qListMin (l : List ℚ) : Option ℚ :=
  match l with
  | [] => none
  | x :: xs => some (xs.foldl qmin x)

/-- Maximum of a list of rationals, none when empty. -/
def qListMax (l : List ℚ) : Option ℚ :=
  match l with
  | [] => none
  | x :: xs => some (xs.foldl qmax x)

/-- indicators.true_range for all bars after the first: previous close
is available, pandas max over the three legs. -/
def trAux (pc : ℚ) : List Candle → List ℚ
  | [] => []
  | c :: rest =>
    qmax (c.high - c.low) (qmax (qabs (c.high - pc)) (qabs (c.low - pc))) :: trAux c.close rest

/-- indicators.true_range: the first bar has no previous close, pandas
skips the NaN legs and keeps high - low. -/
def trueRanges : List Candle → List ℚ
  | [] => []
  | c :: rest => (c.high - c.low) :: trAux c.close rest

/-- Last value of pandas ewm(adjust=False).mean(): y0 = x0,
y(i) = (1-alpha)*y(i-1) + alpha*x(i). -/
def ewmLast (alpha : ℚ) : List ℚ → Option ℚ
  | [] => none
  | x :: xs => some (xs.foldl (fun y v => (1 - alpha) * y + alpha * v) x)

/-- indicators.atr with period 14 evaluated at the last bar; none models
the NaN produced by min_periods=14 when fewer than 14 bars exist. -/
def atrLast (df : List Candle) : Option ℚ :=
  if df.length < 14 then none
  else ewmLast (2 / 15) (trueRanges df)

/-- Accumulators of the touch-counting loop in zones.detect_zone. -/
structure TouchCounts where
  top : ℕ
  bottom : ℕ
  total : ℕ
deriving DecidableEq

/-- The body of the touch-counting loop in zones.detect_zone: per-side
counters increment on every touching bar; only the total counter is
debounced by touch_separation_bars, jointly across both sides. -/
def touchLoop (sep : ℤ) (topLevel botLevel buf : ℚ) :
    List Candle → ℤ → ℤ → ℕ → ℕ → ℕ → TouchCounts
  | [], _, _, t, b, tot => ⟨t, b, tot⟩
  | c :: rest, i, lastTouch, t, b, tot =>
    let t2 := if topLevel - buf ≤ c.high then t + 1 else t
    let b2 := if c.low ≤ botLevel + buf then b + 1 else b
    if (topLevel - buf ≤ c.high ∨ c.low ≤ botLevel + buf) ∧ sep ≤ i - lastTouch then
      touchLoop sep topLevel botLevel buf rest (i + 1) i t2 b2 (tot + 1)
    else
      touchLoop sep topLevel botLevel buf rest (i + 1) lastTouch t2 b2 tot

/-- The touch-counting pass of zones.detect_zone (last_touch_i starts at
-10000). -/
def countTouches (sep : ℕ) (topLevel botLevel buf : ℚ) (look : List Candle) : TouchCounts :=
  touchLoop (sep : ℤ) topLevel botLevel buf look 0 (-10000) 0 0 0

/-- zones.detect_zone: reject series shorter than 50 bars or with an
undefined ATR; band boundaries are min and max of the closes in the
trailing dwell_bars window; reject when the width exceeds
atr_tight_mult * ATR; otherwise count touches and emit the Zone. -/
def detect_zone (s : Settings) (df : List Candle) : Option Zone :=
  if df.length < 50 then none
  else
    match atrLast df with
    | none => none
    | some a =>
      let look := df.drop (df.length - s.dwell_bars)
      match qListMin (look.map Candle.close), qListMax (look.map Candle.close) with
      | some low_c, some high_c =>
        let width := high_c - low_c
        if s.atr_tight_mult * a < width then none
        else
          let buf := s.touch_buffer_frac * a
          let tc := countTouches s.touch_separation_bars high_c low_c buf look
          some ⟨df.length - s.dwell_bars, df.length - 1, low_c, high_c, width,
                tc.top, tc.bottom, tc.total, a, s.dwell_bars⟩
      | _, _ => none

/-- exits.ExitDecision dataclass. -/
structure ExitDecision where
  exit_now : Bool
  reason : Option String
  exit_price : Option ℚ
deriving DecidableEq

/-- exits.evaluate_exit: hard stop first (fill at the stop price), then
T2 before T1, else no exit; SHORT mirrors LONG. -/
def evaluate_exit (side : String) (bar : Candle) (sl_price : ℚ) (t1 t2 : Option ℚ) : ExitDecision :=
  let noExit : ExitDecision := ⟨false, none, none⟩
  let longT1 : ExitDecision :=
    match t1 with
    | some v1 => if v1 ≤ bar.high then ⟨true, some "T1", some v1⟩ else noExit
    | none => noExit
  let shortT1 : ExitDecision :=
    match t1 with
    | some v1 => if bar.low ≤ v1 then ⟨true, some "T1", some v1⟩ else noExit
    | none => noExit
  if side = "LONG" ∧ bar.low ≤ sl_price then ⟨true, some "SL", some sl_price⟩
  else if side = "SHORT" ∧ sl_price ≤ bar.high then ⟨true, some "SL", some sl_price⟩
  else if side = "LONG" then
    match t2 with
    | some v2 => if v2 ≤ bar.high then ⟨true, some "T2", some v2⟩ else longT1
    | none => longT1
  else
    match t2 with
    | some v2 => if bar.low ≤ v2 then ⟨true, some "T2", some v2⟩ else shortT1
    | none => shortT1

/-- Trade fields set at entry by backtest.engine.Backtester.run. -/
structure TradeOpen where
  side : String
  entry_price : ℚ
  sl_price : ℚ
deriving DecidableEq

/-- The breakout entry decision of Backtester.run for a bar with no open
position, given the detected zone and the ATR of the window; the two
sequential if-blocks of the source both require the dwell guard. -/
def engineBreakoutEntry (s : Settings) (z : Zone) (a : ℚ) (bar : Candle) : Option TradeOpen :=
  let buf := s.breakout_buffer_frac * a
  if z.high_close + buf < bar.close ∧ 3 ≤ z.touches_top ∧ s.dwell_bars ≤ z.dwell_bars then
    some ⟨"LONG", bar.close, bar.low⟩
  else if bar.close < z.low_close - buf ∧ 3 ≤ z.touches_bottom ∧ s.dwell_bars ≤ z.dwell_bars then
    some ⟨"SHORT", bar.close, bar.high⟩
  else none

/-- One flat-state step of Backtester.run: detect the zone on the window
ending at the current bar, require a defined ATR, then apply the
breakout entry decision to the current (= last) bar. -/
def engineEntryStep (s : Settings) (w : List Candle) : Option TradeOpen :=
  match detect_zone s w, atrLast w, w.getLast? with
  | some z, some a, some bar => engineBreakoutEntry s z a bar
  | _, _, _ => none

/-- Trailing update of Backtester.run: a new swing value is accepted
only when trailing is already set and the new value is strictly better
(higher for LONG, lower for SHORT). -/
def update_trailing (side : String) (trailing trailingNew : Option ℚ) : Option ℚ :=
  match trailingNew with
  | none => trailing
  | some tn =>
    match trailing with
    | none => none
    | some t =>
      if side = "LONG" ∧ t < tn then some tn
      else if side = "SHORT" ∧ tn < t then some tn
      else some t

/-- Effective stop of Backtester.run: max of hard stop and trailing for
LONG, min for SHORT; the hard stop alone when trailing is unset. -/
def sl_effective (side : String) (sl : ℚ) (trailing : Option ℚ) : ℚ :=
  match trailing with
  | none => sl
  | some t => if side = "LONG" then qmax sl t else qmin sl t

/-- Right-closed, right-labeled bucket label of a timestamp for a bucket
of size m, as in pandas resample(rule, label="right", closed="right"):
ts belongs to the interval (lab - m, lab]. -/
def bucketLabel (m ts : ℕ) : ℕ := m * ((ts + m - 1) / m)

/-- OHLCV folding of one bucket in resample.resample_ohlcv: open of the
first bar, max high, min low, close of the last bar, summed volume;
empty buckets produce the NaN row that dropna removes. -/
def aggBucket (lab : ℕ) : List Candle → Option Candle
  | [] => none
  | c :: cs =>
    some { ts := lab
           openPrice := c.openPrice
           high := cs.foldl (fun acc y => qmax acc y.high) c.high
           low := cs.foldl (fun acc y => qmin acc y.low) c.low
           close := cs.foldl (fun _ y => y.close) c.close
           volume := cs.foldl (fun acc y => acc + y.volume) c.volume }

/-- resample.resample_ohlcv after the dropna: one aggregated bar per
bucket that received at least one base bar, in time order. -/
def resample_ohlcv (m : ℕ) (df : List Candle) : List Candle :=
  ((df.map fun c => bucketLabel m c.ts).dedup).filterMap
    fun lab => aggBucket lab (df.filter fun c => bucketLabel m c.ts == lab)

/-- trend.TrendLabel dataclass. -/
structure TrendLabel where
  timeframe : String
  label : String
deriving DecidableEq

/-- trend.permission_all_bullish over the ladder's label values. -/
def permission_all_bullish (labels : List TrendLabel) : Bool :=
  labels.all fun v => v.label == "Bullish"

/-- trend.permission_all_bearish over the ladder's label values. -/
def permission_all_bearish (labels : List TrendLabel) : Bool :=
  labels.all fun v => v.label == "Bearish"

/-- The permission computation shared by monitor.SymbolWatcher._permission
and Backtester.run: LONG when all bullish, else SHORT when all bearish,
else NONE. -/
def permission (labels : List TrendLabel) : String :=
  if permission_all_bullish labels then "LONG"
  else if permission_all_bearish labels then "SHORT"
  else "NONE"

/-- monitor.Position dataclass. -/
structure Position where
  symbol : String
  side : String
  entry_price : ℚ
  sl_price : ℚ
  time : ℕ
  trend_aligned : Bool
deriving DecidableEq

/-- The retest-wait fields of monitor.SymbolWatcher. -/
structure WatchState where
  no_dwell_break_time : Option ℕ
  awaiting_retest_side : Option String
deriving DecidableEq

/-- monitor.SymbolWatcher._check_retest_logic: inside the retest window,
require the bar to overlap the zone band and to close back beyond the
breakout boundary plus buffer; the constructed Position leaves
trend_aligned at its dataclass default False.  Returns the updated
retest-wait fields and the optional entry. -/
def check_retest_logic (s : Settings) (sym : String) (st : WatchState) (a : ℚ)
    (last : Candle) (zone : Zone) (side : String) : WatchState × Option Position :=
  let buf := s.breakout_buffer_frac * a
  match st.no_dwell_break_time with
  | none => (st, none)
  | some t0 =>
    if st.awaiting_retest_side ≠ some side then (st, none)
    else
      let windowEnd := t0 + 5 * s.retest_window_bars
      if windowEnd < last.ts then (⟨none, none⟩, none)
      else if ¬ (last.low ≤ zone.high_close ∧ zone.low_close ≤ last.high) then (st, none)
      else if side = "LONG" ∧ zone.high_close + buf < last.close then
        (⟨none, none⟩, some ⟨sym, "LONG", last.close, last.low, last.ts, false⟩)
      else if side = "SHORT" ∧ last.close < zone.low_close - buf then
        (⟨none, none⟩, some ⟨sym, "SHORT", last.close, last.high, last.ts, false⟩)
      else (st, none)

/-- monitor.SymbolWatcher._check_breakout: direct entry when the close
clears the boundary plus buffer with at least 3 same-side touches and
the dwell guard holds; when the dwell guard fails, remember the breakout
time and side and wait for a retest; otherwise fall through to
_check_retest_logic, to which the source passes the trend permission as
the side argument. -/
def check_breakout (s : Settings) (sym : String) (st : WatchState) (zone : Zone)
    (a : ℚ) (perm : String) (last : Candle) : WatchState × Option Position :=
  let buf := s.breakout_buffer_frac * a
  if zone.high_close + buf < last.close ∧ 3 ≤ zone.touches_top then
    if s.dwell_bars ≤ zone.dwell_bars then
      (st, some ⟨sym, "LONG", last.close, last.low, last.ts, decide (perm = "LONG")⟩)
    else (⟨some last.ts, some "LONG"⟩, none)
  else if last.close < zone.low_close - buf ∧ 3 ≤ zone.touches_bottom then
    if s.dwell_bars ≤ zone.dwell_bars then
      (st, some ⟨sym, "SHORT", last.close, last.high, last.ts, decide (perm = "SHORT")⟩)
    else (⟨some last.ts, some "SHORT"⟩, none)
  else check_retest_logic s sym st a last zone perm

/-- futures_client.FuturesClient.calculate_position_size with the account
balance and the two configured percentages passed explicitly: zero when
the entry-to-stop distance is zero, else position value over risk. -/
def calculate_position_size (availableBalance pctAligned pctCounter : ℚ)
    (entry_price sl_price : ℚ) (trend_aligned : Bool) : ℚ :=
  let positionValue :=
    availableBalance * (if trend_aligned then pctAligned else pctCounter) / 100
  let riskPerUnit := qabs (entry_price - sl_price)
  if riskPerUnit ≤ 0 then 0 else positionValue / riskPerUnit

/-- The shared open-position counter of monitor.Monitor. -/
structure PoolCounter where
  openCount : ℕ
  maxCount : ℕ
deriving DecidableEq

/-- Result of the entry-commit sequence of monitor.SymbolWatcher.run. -/
structure EntryCommitResult where
  counter : PoolCounter
  open_position : Option Position
  orderPlaced : Bool
deriving DecidableEq

/-- The entry-commit sequence of monitor.SymbolWatcher.run together with
the size check of _execute_trade: below the cap the counter is
incremented and open_position is set first; _execute_trade then returns
early when the computed quantity is not positive, leaving both in place. -/
def commitEntry (counter : PoolCounter) (pos : Position) (quantity : ℚ) : EntryCommitResult :=
  if counter.maxCount ≤ counter.openCount then ⟨counter, none, false⟩
  else
    let c2 : PoolCounter := ⟨counter.openCount + 1, counter.maxCount⟩
    if quantity ≤ 0 then ⟨c2, some pos, false⟩
    else ⟨c2, some pos, true⟩

/-- The default strategy settings of config.Settings: dwell 18, touch
separation 3, retest window 8, touch buffer 0.15, breakout buffer 0.15,
tightness 0.55. -/
def defaultSettings : Settings := ⟨18, 3, 8, 3/20, 3/20, 11/20⟩

/-- A configuration with a 6-bar dwell window, touch buffer 0.05 and
tightness 1, used for concrete touch-counting scenarios. -/
def s5 : Settings := ⟨6, 3, 8, 1/20, 3/20, 1⟩

/-- A flat 50-bar series: every candle has open = high = low = close = 100. -/
def flat50 : List Candle := (List.range 50).map fun i => ⟨i, 100, 100, 100, 100, 0⟩

/-- Closing prices oscillating between 100 and 104 before the window. -/
def histClose (i : ℕ) : ℚ := if i % 2 = 0 then 100 else 104

/-- Closes of a 50-bar series whose trailing 6-bar window is
[100.4, 100.4, 100, 100.2, 100.2, 100.2]: the top boundary 100.4 is
touched on exactly the first two (= touch_separation_bars - 1)
consecutive window bars and never again. -/
def c5aClose (i : ℕ) : ℚ :=
  if i < 44 then histClose i
  else if i < 46 then 502/5
  else if i = 46 then 100
  else 501/5

/-- The 50-bar series with closes c5aClose and no wicks. -/
def c5a : List Candle := (List.range 50).map fun i => ⟨i, c5aClose i, c5aClose i, c5aClose i, c5aClose i, 0⟩

/-- Closes of a 50-bar series whose trailing 6-bar window is
[100.4, 100.4, 100, 100.4, 100.2, 100.2]: as c5aClose but with a further
top touch at window index 3, exactly touch_separation_bars after the
first counted touch. -/
def c5bClose (i : ℕ) : ℚ :=
  if i < 44 then histClose i
  else if i < 46 then 502/5
  else if i = 46 then 100
  else if i = 47 then 502/5
  else 501/5

/-- The 50-bar series with closes c5bClose and no wicks. -/
def c5b : List Candle := (List.range 50).map fun i => ⟨i, c5bClose i, c5bClose i, c5bClose i, c5bClose i, 0⟩

/-- The zone detected on a concrete series, defaulting to a zero zone. -/
def zoneOf (s : Settings) (df : List Candle) : Zone :=
  (detect_zone s df).getD ⟨0, 0, 0, 0, 0, 0, 0, 0, 0, 0⟩

/-- The ATR value of a concrete series, defaulting to zero. -/
def atrOf (df : List Candle) : ℚ := (atrLast df).getD 0

/-- The last candle of a concrete series, defaulting to a zero candle. -/
def lastCandle (df : List Candle) : Candle := (df.getLast?).getD ⟨0, 0, 0, 0, 0, 0⟩

/-- A one-candle base series at timestamp 1: its 2-minute bucket (0, 2]
is only half covered. -/
def ex6 : List Candle := [⟨1, 7, 9, 5, 8, 3⟩]

/-- The zone detect_zone finds on flat50 with the default settings. -/
def flatZone : Zone := ⟨32, 49, 100, 100, 0, 18, 18, 6, 0, 18⟩

/-- The last candle of flat50. -/
def flatBar : Candle := ⟨49, 100, 100, 100, 100, 0⟩

/-- A four-timeframe ladder with three Bullish labels and one Neutral. -/
def ladder4 : List TrendLabel :=
  [⟨"1M", "Bullish"⟩, ⟨"1W", "Bullish"⟩, ⟨"1D", "Bullish"⟩, ⟨"1h", "Neutral"⟩]

/-- A zone awaiting a retest: only 2 top touches, so the direct breakout
branch cannot fire. -/
def z8 : Zone := ⟨0, 17, 100, 101, 1, 2, 2, 4, 1, 18⟩

/-- Watcher state remembering a LONG no-dwell breakout at time 0. -/
def st8 : WatchState := ⟨some 0, some "LONG"⟩

/-- A retest-confirming bar at time 20: its range [100.5, 101.3] overlaps
the band [100, 101] of z8 and its close 101.2 clears 101 plus the 0.15
buffer. -/
def bar8 : Candle := ⟨20, 101, 1013/10, 201/2, 506/5, 0⟩

/-- A signal whose stop equals its entry: zero risk distance. -/
def pos9 : Position := ⟨"BTCUSDT", "LONG", 100, 100, 0, true⟩

theorem le_qmax_left (a b : ℚ) : a ≤ qmax a b := by
  unfold qmax; split_ifs with h
  · exact h
  · exact le_refl a

theorem le_qmax_right (a b : ℚ) : b ≤ qmax a b := by
  unfold qmax; split_ifs with h
  · exact le_refl b
  · exact (not_le.mp h).le

theorem qmin_le_left (a b : ℚ) : qmin a b ≤ a := by
  unfold qmin; split_ifs with h
  · exact le_refl a
  · exact (not_le.mp h).le

theorem qmin_le_right (a b : ℚ) : qmin a b ≤ b := by
  unfold qmin; split_ifs with h
  · exact h
  · exact le_refl b

theorem qmax_eq_or (a b : ℚ) : qmax a b = a ∨ qmax a b = b := by
  unfold qmax; split_ifs
  · exact Or.inr rfl
  · exact Or.inl rfl

theorem qmin_eq_or (a b : ℚ) : qmin a b = a ∨ qmin a b = b := by
  unfold qmin; split_ifs
  · exact Or.inl rfl
  · exact Or.inr rfl

theorem qmax_mono_right (a b c : ℚ) (h : b ≤ c) : qmax a b ≤ qmax a c := by
  unfold qmax; split_ifs <;> linarith

theorem qmin_mono_right (a b c : ℚ) (h : c ≤ b) : qmin a c ≤ qmin a b := by
  unfold qmin; split_ifs <;> linarith

theorem detect_zone_inv (s : Settings) (df : List Candle) (z : Zone)
    (hz : detect_zone s df = some z) :
    ¬ df.length < 50 ∧
    atrLast df = some z.atr ∧
    qListMin ((df.drop (df.length - s.dwell_bars)).map Candle.close) = some z.low_close ∧
    qListMax ((df.drop (df.length - s.dwell_bars)).map Candle.close) = some z.high_close ∧
    z.width = z.high_close - z.low_close ∧
    ¬ s.atr_tight_mult * z.atr < z.width ∧
    z.dwell_bars = s.dwell_bars ∧
    countTouches s.touch_separation_bars z.high_close z.low_close (s.touch_buffer_frac * z.atr)
      (df.drop (df.length - s.dwell_bars)) = ⟨z.touches_top, z.touches_bottom, z.total_touches⟩ := by
  unfold detect_zone at hz
  by_cases h50 : df.length < 50
  · rw [if_pos h50] at hz; exact absurd hz (by simp)
  · rw [if_neg h50] at hz
    cases ha : atrLast df with
    | none => rw [ha] at hz; exact absurd hz (by simp)
    | some a =>
      rw [ha] at hz
      dsimp only at hz
      cases hmin : qListMin ((df.drop (df.length - s.dwell_bars)).map Candle.close) with
      | none => rw [hmin] at hz; exact absurd hz (by simp)
      | some low_c =>
        cases hmax : qListMax ((df.drop (df.length - s.dwell_bars)).map Candle.close) with
        | none => rw [hmin, hmax] at hz; exact absurd hz (by simp)
        | some high_c =>
          rw [hmin, hmax] at hz
          dsimp only at hz
          by_cases htight : s.atr_tight_mult * a < high_c - low_c
          · rw [if_pos htight] at hz; exact absurd hz (by simp)
          · rw [if_neg htight] at hz
            injection hz with hz
            subst hz
            exact ⟨h50, rfl, rfl, rfl, rfl, htight, rfl, rfl⟩

theorem touchLoop_side_counts (sep : ℤ) (topLevel botLevel buf : ℚ) :
    ∀ (l : List Candle) (i lastTouch : ℤ) (t b tot : ℕ),
      (touchLoop sep topLevel botLevel buf l i lastTouch t b tot).top =
        t + (l.filter fun c => decide (topLevel - buf ≤ c.high)).length ∧
      (touchLoop sep topLevel botLevel buf l i lastTouch t b tot).bottom =
        b + (l.filter fun c => decide (c.low ≤ botLevel + buf)).length := by
  intro l
  induction l with
  | nil => intro i lastTouch t b tot; simp [touchLoop]
  | cons c l ih =>
    intro i lastTouch t b tot
    unfold touchLoop
    dsimp only
    rcases Decidable.em (topLevel - buf ≤ c.high) with h1 | h1 <;>
      rcases Decidable.em (c.low ≤ botLevel + buf) with h2 | h2 <;>
      split_ifs with h3 <;>
      simp only [List.filter_cons, decide_eq_true_eq, h1, h2, List.length_cons,
        if_true, if_false, iff_true, iff_false, ih] <;>
      exact ⟨by first | trivial | omega, by first | trivial | omega⟩

theorem foldl_qmax_spec (f : Candle → ℚ) :
    ∀ (l : List Candle) (a : ℚ),
      (l.foldl (fun acc y => qmax acc (f y)) a = a ∨
        l.foldl (fun acc y => qmax acc (f y)) a ∈ l.map f) ∧
      a ≤ l.foldl (fun acc y => qmax acc (f y)) a ∧
      ∀ x ∈ l.map f, x ≤ l.foldl (fun acc y => qmax acc (f y)) a := by
  intro l
  induction l with
  | nil => intro a; refine ⟨Or.inl rfl, le_refl a, ?_⟩; simp
  | cons c l ih =>
    intro a
    obtain ⟨hm, hlb, hub⟩ := ih (qmax a (f c))
    simp only [List.foldl_cons, List.map_cons]
    refine ⟨?_, le_trans (le_qmax_left a (f c)) hlb, ?_⟩
    · rcases hm with hm | hm
      · rcases qmax_eq_or a (f c) with h | h
        · exact Or.inl (hm.trans h)
        · rw [hm, h]; exact Or.inr (List.mem_cons_self _ _)
      · exact Or.inr (List.mem_cons_of_mem (f c) hm)
    · intro x hx
      rcases List.mem_cons.mp hx with h | h
      · rw [h]; exact le_trans (le_qmax_right a (f c)) hlb
      · exact hub x h

theorem foldl_qmin_spec (f : Candle → ℚ) :
    ∀ (l : List Candle) (a : ℚ),
      (l.foldl (fun acc y => qmin acc (f y)) a = a ∨
        l.foldl (fun acc y => qmin acc (f y)) a ∈ l.map f) ∧
      l.foldl (fun acc y => qmin acc (f y)) a ≤ a ∧
      ∀ x ∈ l.map f, l.foldl (fun acc y => qmin acc (f y)) a ≤ x := by
  intro l
  induction l with
  | nil => intro a; refine ⟨Or.inl rfl, le_refl a, ?_⟩; simp
  | cons c l ih =>
    intro a
    obtain ⟨hm, hub, hlb⟩ := ih (qmin a (f c))
    simp only [List.foldl_cons, List.map_cons]
    refine ⟨?_, le_trans hub (qmin_le_left a (f c)), ?_⟩
    · rcases hm with hm | hm
      · rcases qmin_eq_or a (f c) with h | h
        · exact Or.inl (hm.trans h)
        · rw [hm, h]; exact Or.inr (List.mem_cons_self _ _)
      · exact Or.inr (List.mem_cons_of_mem (f c) hm)
    · intro x hx
      rcases List.mem_cons.mp hx with h | h
      · rw [h]; exact le_trans hub (qmin_le_right a (f c))
      · exact hlb x h

theorem foldl_last_close :
    ∀ (l : List Candle) (x : ℚ),
      l.foldl (fun _ y => y.close) x = ((l.map Candle.close).getLast?).getD x := by
  intro l
  induction l with
  | nil => intro x; simp
  | cons c l ih =>
    intro x
    simp only [List.foldl_cons, List.map_cons]
    rw [ih c.close]
    cases hl : (l.map Candle.close).getLast? with
    | none =>
      have : l.map Candle.close = [] := List.getLast?_eq_none_iff.mp hl
      rw [this]
      simp
    | some v =>
      obtain ⟨y, t, hmap⟩ : ∃ y t, l.map Candle.close = y :: t := by
        cases hm : l.map Candle.close with
        | nil => rw [hm] at hl; simp at hl
        | cons y t => exact ⟨y, t, rfl⟩
      rw [hmap] at hl ⊢
      rw [List.getLast?_cons_cons, hl]
      rfl

theorem foldl_add_volume :
    ∀ (l : List Candle) (x : ℚ),
      l.foldl (fun acc y => acc + y.volume) x = x + (l.map Candle.volume).sum := by
  intro l
  induction l with
  | nil => intro x; simp
  | cons c l ih =>
    intro x
    simp only [List.foldl_cons, List.map_cons, List.sum_cons]
    rw [ih (x + c.volume)]
    ring

theorem check_retest_logic_state (s : Settings) (sym : String) (st : WatchState) (a : ℚ)
    (last : Candle) (zone : Zone) (side : String) :
    (check_retest_logic s sym st a last zone side).1 = st ∨
    (check_retest_logic s sym st a last zone side).1 = ⟨none, none⟩ := by
  obtain ⟨nd, aw⟩ := st
  cases nd with
  | none => exact Or.inl rfl
  | some t0 =>
    unfold check_retest_logic
    dsimp only
    split_ifs <;> simp

/-- C2: evaluate_exit gives the hard stop priority over targets: for a
LONG position, a bar whose low is at or below the effective stop exits
with reason SL at the stop price itself, whatever the targets; only when
the stop is not hit are targets checked, T2 before T1; SHORT is mirrored
with the high against the stop and the low against the targets. -/
theorem C2_exit_priority (bar : Candle) (sl : ℚ) (t1 t2 : Option ℚ) :
    (bar.low ≤ sl → evaluate_exit "LONG" bar sl t1 t2 = ⟨true, some "SL", some sl⟩) ∧
    (¬ bar.low ≤ sl → ∀ v2, t2 = some v2 → v2 ≤ bar.high →
      evaluate_exit "LONG" bar sl t1 t2 = ⟨true, some "T2", some v2⟩) ∧
    (¬ bar.low ≤ sl → ∀ v1, t1 = some v1 → v1 ≤ bar.high →
      (∀ v2, t2 = some v2 → bar.high < v2) →
      evaluate_exit "LONG" bar sl t1 t2 = ⟨true, some "T1", some v1⟩) ∧
    (sl ≤ bar.high → evaluate_exit "SHORT" bar sl t1 t2 = ⟨true, some "SL", some sl⟩) ∧
    (¬ sl ≤ bar.high → ∀ v2, t2 = some v2 → bar.low ≤ v2 →
      evaluate_exit "SHORT" bar sl t1 t2 = ⟨true, some "T2", some v2⟩) ∧
    (¬ sl ≤ bar.high → ∀ v1, t1 = some v1 → bar.low ≤ v1 →
      (∀ v2, t2 = some v2 → v2 < bar.low) →
      evaluate_exit "SHORT" bar sl t1 t2 = ⟨true, some "T1", some v1⟩) := by
  unfold evaluate_exit
  dsimp only
  refine ⟨?_, ?_, ?_, ?_, ?_, ?_⟩
  · intro h
    rw [if_pos ⟨rfl, h⟩]
  · intro h v2 ht2 hv2
    rw [if_neg (fun hc => h hc.2), if_neg (fun hc => absurd hc.1 (by decide)), if_pos rfl, ht2]
    dsimp only
    rw [if_pos hv2]
  · intro h v1 ht1 hv1 hno2
    rw [if_neg (fun hc => h hc.2), if_neg (fun hc => absurd hc.1 (by decide)), if_pos rfl]
    cases t2 with
    | none => rw [ht1]; dsimp only; rw [if_pos hv1]
    | some v2 =>
      dsimp only
      rw [if_neg (not_le.mpr (hno2 v2 rfl)), ht1]
      dsimp only
      rw [if_pos hv1]
  · intro h
    rw [if_neg (fun hc => absurd hc.1 (by decide)), if_pos ⟨rfl, h⟩]
  · intro h v2 ht2 hv2
    rw [if_neg (fun hc => absurd hc.1 (by decide)), if_neg (fun hc => h hc.2),
      if_neg (fun hc => absurd hc (by decide)), ht2]
    dsimp only
    rw [if_pos hv2]
  · intro h v1 ht1 hv1 hno2
    rw [if_neg (fun hc => absurd hc.1 (by decide)), if_neg (fun hc => h hc.2),
      if_neg (fun hc => absurd hc (by decide))]
    cases t2 with
    | none => rw [ht1]; dsimp only; rw [if_pos hv1]
    | some v2 =>
      dsimp only
      rw [if_neg (not_le.mpr (hno2 v2 rfl)), ht1]
      dsimp only
      rw [if_pos hv1]

/-- Witness for C2: a LONG bar spanning [90, 110] with stop 95 and both
targets 100 and 105 inside the range exits SL at 95, not at the bar low;
with the stop below the bar low, the same bar exits T2 before T1. -/
theorem C2_witness :
    evaluate_exit "LONG" ⟨0, 100, 110, 90, 100, 0⟩ 95 (some 100) (some 105) =
      ⟨true, some "SL", some 95⟩ ∧
    evaluate_exit "LONG" ⟨0, 100, 110, 96, 100, 0⟩ 95 (some 100) (some 105) =
      ⟨true, some "T2", some 105⟩ :=
  ⟨(C2_exit_priority ⟨0, 100, 110, 90, 100, 0⟩ 95 (some 100) (some 105)).1
      (by with_unfolding_all decide),
   (C2_exit_priority ⟨0, 100, 110, 96, 100, 0⟩ 95 (some 100) (some 105)).2.1
      (by with_unfolding_all decide) 105 rfl (by with_unfolding_all decide)⟩

/-- C3: the effective stop of an open LONG position never decreases
across a bar step: a new trailing swing value is accepted only when it
is strictly higher than the held one, and the effective stop is the
maximum of the fixed hard stop and the trailing value; SHORT mirrors
this with strictly lower and minimum. -/
theorem C3_trailing_stop_monotone (sl : ℚ) (tr tn : Option ℚ) :
    sl_effective "LONG" sl tr ≤ sl_effective "LONG" sl (update_trailing "LONG" tr tn) ∧
    sl_effective "SHORT" sl (update_trailing "SHORT" tr tn) ≤ sl_effective "SHORT" sl tr ∧
    (∀ t v, tr = some t → tn = some v → t < v → update_trailing "LONG" tr tn = some v) ∧
    (∀ t v, tr = some t → tn = some v → ¬ t < v → update_trailing "LONG" tr tn = some t) ∧
    (∀ t v, tr = some t → tn = some v → v < t → update_trailing "SHORT" tr tn = some v) ∧
    (∀ t v, tr = some t → tn = some v → ¬ v < t → update_trailing "SHORT" tr tn = some t) ∧
    (∀ t, sl_effective "LONG" sl (some t) = qmax sl t) ∧
    (∀ t, sl_effective "SHORT" sl (some t) = qmin sl t) := by
  refine ⟨?_, ?_, ?_, ?_, ?_, ?_, fun t => by simp [sl_effective],
    fun t => by simp [sl_effective]⟩
  · cases tn with
    | none => exact le_refl _
    | some v =>
      cases tr with
      | none => exact le_refl _
      | some t =>
        by_cases hlt : t < v
        · simp [update_trailing, sl_effective, hlt,
            (show ¬ ("LONG" : String) = "SHORT" by decide)]
          exact qmax_mono_right sl t v hlt.le
        · simp [update_trailing, sl_effective, hlt,
            (show ¬ ("LONG" : String) = "SHORT" by decide)]
  · cases tn with
    | none => exact le_refl _
    | some v =>
      cases tr with
      | none => exact le_refl _
      | some t =>
        by_cases hlt : v < t
        · simp [update_trailing, sl_effective, hlt,
            (show ¬ ("SHORT" : String) = "LONG" by decide)]
          exact qmin_mono_right sl t v hlt.le
        · simp [update_trailing, sl_effective, hlt,
            (show ¬ ("SHORT" : String) = "LONG" by decide)]
  · intro t v htr htn hlt
    subst htr; subst htn
    simp [update_trailing, hlt, (show ¬ ("LONG" : String) = "SHORT" by decide)]
  · intro t v htr htn hlt
    subst htr; subst htn
    simp [update_trailing, hlt, (show ¬ ("LONG" : String) = "SHORT" by decide)]
  · intro t v htr htn hlt
    subst htr; subst htn
    simp [update_trailing, hlt, (show ¬ ("SHORT" : String) = "LONG" by decide)]
  · intro t v htr htn hlt
    subst htr; subst htn
    simp [update_trailing, hlt, (show ¬ ("SHORT" : String) = "LONG" by decide)]

/-- Witness for C3: with hard stop 95, held trailing 97 and a newly
computed lower swing 96, the new value is rejected and the effective
stop stays at 97. -/
theorem C3_witness :
    sl_effective "LONG" 95 (some 97) ≤
      sl_effective "LONG" 95 (update_trailing "LONG" (some 97) (some 96)) ∧
    update_trailing "LONG" (some 97) (some 96) = some 97 :=
  ⟨(C3_trailing_stop_monotone 95 (some 97) (some 96)).1,
   (C3_trailing_stop_monotone 95 (some 97) (some 96)).2.2.2.1 97 96 rfl rfl
      (by with_unfolding_all decide)⟩

/-- Counterexample for C7: on the empty ladder every label is vacuously
Bearish, yet the permission computed by the source is LONG, not SHORT,
because all() of an empty collection is true and the Bullish test is
checked first. -/
theorem C7_counterexample_empty_ladder :
    permission [] = "LONG" ∧ permission_all_bearish [] = true ∧ permission [] ≠ "SHORT" := by
  refine ⟨rfl, rfl, ?_⟩
  decide

/-- C7 amended: for every nonempty trend-label ladder, permission is
LONG iff every timeframe is Bullish, SHORT iff every timeframe is
Bearish, and NONE otherwise. -/
theorem C7_amended_permission_unanimity (labels : List TrendLabel) (h : labels ≠ []) :
    (permission labels = "LONG" ↔ ∀ v ∈ labels, v.label = "Bullish") ∧
    (permission labels = "SHORT" ↔ ∀ v ∈ labels, v.label = "Bearish") ∧
    ((¬ ∀ v ∈ labels, v.label = "Bullish") → (¬ ∀ v ∈ labels, v.label = "Bearish") →
      permission labels = "NONE") := by
  have hbull : permission_all_bullish labels = true ↔ ∀ v ∈ labels, v.label = "Bullish" := by
    unfold permission_all_bullish
    rw [List.all_eq_true]
    constructor
    · intro hb v hv; exact beq_iff_eq.mp (hb v hv)
    · intro hb v hv; exact beq_iff_eq.mpr (hb v hv)
  have hbear : permission_all_bearish labels = true ↔ ∀ v ∈ labels, v.label = "Bearish" := by
    unfold permission_all_bearish
    rw [List.all_eq_true]
    constructor
    · intro hb v hv; exact beq_iff_eq.mp (hb v hv)
    · intro hb v hv; exact beq_iff_eq.mpr (hb v hv)
  unfold permission
  refine ⟨?_, ?_, ?_⟩
  · constructor
    · intro hp
      by_cases hb : permission_all_bullish labels = true
      · exact hbull.mp hb
      · rw [if_neg hb] at hp
        by_cases hbe : permission_all_bearish labels = true
        · rw [if_pos hbe] at hp; exact absurd hp (by decide)
        · rw [if_neg hbe] at hp; exact absurd hp (by decide)
    · intro hall
      rw [if_pos (hbull.mpr hall)]
  · constructor
    · intro hp
      by_cases hb : permission_all_bullish labels = true
      · rw [if_pos hb] at hp; exact absurd hp (by decide)
      · rw [if_neg hb] at hp
        by_cases hbe : permission_all_bearish labels = true
        · exact hbear.mp hbe
        · rw [if_neg hbe] at hp; exact absurd hp (by decide)
    · intro hall
      obtain ⟨l0, ls, rfl⟩ : ∃ l0 ls, labels = l0 :: ls := by
        cases labels with
        | nil => exact absurd rfl h
        | cons l0 ls => exact ⟨l0, ls, rfl⟩
      have hb : ¬ permission_all_bullish (l0 :: ls) = true := by
        intro hb
        have h0 : l0.label = "Bullish" := hbull.mp hb l0 (List.mem_cons_self _ _)
        have h1 : l0.label = "Bearish" := hall l0 (List.mem_cons_self _ _)
        rw [h0] at h1
        exact absurd h1 (by decide)
      rw [if_neg hb, if_pos (hbear.mpr hall)]
  · intro hnb hne
    rw [if_neg (fun hb => hnb (hbull.mp hb)), if_neg (fun hb => hne (hbear.mp hb))]

/-- Witness for C7 amended: a four-timeframe ladder with three Bullish
labels and one Neutral yields permission NONE. -/
theorem C7_witness : permission ladder4 = "NONE" :=
  (C7_amended_permission_unanimity ladder4 (by decide)).2.2 (by decide) (by decide)

theorem le_foldl_qmax : ∀ (xs : List ℚ) (x : ℚ), x ≤ xs.foldl qmax x := by
  intro xs
  induction xs with
  | nil => intro x; exact le_refl x
  | cons y xs ih => intro x; exact le_trans (le_qmax_left x y) (ih (qmax x y))

theorem foldl_qmin_le : ∀ (xs : List ℚ) (x : ℚ), xs.foldl qmin x ≤ x := by
  intro xs
  induction xs with
  | nil => intro x; exact le_refl x
  | cons y xs ih => intro x; exact le_trans (ih (qmin x y)) (qmin_le_left x y)

theorem qListMin_le_qListMax (l : List ℚ) (mn mx : ℚ)
    (hmn : qListMin l = some mn) (hmx : qListMax l = some mx) : mn ≤ mx := by
  cases l with
  | nil => exact absurd hmn (by simp [qListMin])
  | cons x xs =>
    unfold qListMin at hmn
    unfold qListMax at hmx
    injection hmn with hmn
    injection hmx with hmx
    subst hmn; subst hmx
    exact le_trans (foldl_qmin_le xs x) (le_foldl_qmax xs x)

/-- C4: detect_zone returns no zone on an empty series, on fewer than 50
bars, or when the ATR of the full series is undefined; every zone it
does return has width equal to high_close minus low_close of the
trailing dwell window of closes, bounded by atr_tight_mult times the
ATR. -/
theorem C4_detect_zone_guards (s : Settings) (df : List Candle) :
    (df = [] → detect_zone s df = none) ∧
    (df.length < 50 → detect_zone s df = none) ∧
    (atrLast df = none → detect_zone s df = none) ∧
    ∀ z, detect_zone s df = some z →
      z.width ≤ s.atr_tight_mult * z.atr ∧
      atrLast df = some z.atr ∧
      z.width = z.high_close - z.low_close ∧
      qListMax ((df.drop (df.length - s.dwell_bars)).map Candle.close) = some z.high_close ∧
      qListMin ((df.drop (df.length - s.dwell_bars)).map Candle.close) = some z.low_close := by
  refine ⟨?_, ?_, ?_, ?_⟩
  · intro h
    subst h
    rfl
  · intro h
    unfold detect_zone
    rw [if_pos h]
  · intro h
    unfold detect_zone
    by_cases h50 : df.length < 50
    · rw [if_pos h50]
    · rw [if_neg h50, h]
  · intro z hz
    obtain ⟨h50, ha, hmin, hmax, hw, htight, hdwell, htc⟩ := detect_zone_inv s df z hz
    exact ⟨not_lt.mp htight, ha, hw, hmax, hmin⟩

/-- Witness for C4: the empty series yields no zone via the guard, and
the flat 50-bar series yields a zone satisfying the width bound. -/
theorem C4_witness :
    detect_zone defaultSettings [] = none ∧
    detect_zone defaultSettings flat50 = some flatZone ∧
    flatZone.width ≤ defaultSettings.atr_tight_mult * flatZone.atr :=
  ⟨(C4_detect_zone_guards defaultSettings []).1 rfl,
   by with_unfolding_all decide,
   ((C4_detect_zone_guards defaultSettings flat50).2.2.2 flatZone
      (by with_unfolding_all decide)).1⟩

/-- Counterexample for C5: in the series c5a the top boundary of the
detected zone is touched on exactly touch_separation_bars - 1 = 2
consecutive bars of the trailing window and never again, yet the
reported per-side count is 2, not 1: the source debounces only the
combined total count (1 here), never the per-side counts. -/
theorem C5_counterexample_side_count_not_debounced :
    (detect_zone s5 c5a).map Zone.touches_top = some 2 ∧
    ((c5a.drop 44).map fun c =>
      decide ((502 : ℚ)/5 - s5.touch_buffer_frac * atrOf c5a ≤ c.high)) =
      [true, true, false, false, false, false] ∧
    s5.touch_separation_bars - 1 = 2 ∧
    (detect_zone s5 c5a).map Zone.high_close = some (502/5) ∧
    (detect_zone s5 c5a).map Zone.total_touches = some 1 := by
  with_unfolding_all decide

/-- C5 amended: the per-side touch counts are not debounced at all: each
equals the number of window bars touching that side; only the combined
total_touches count is debounced, jointly across both sides.  On c5a,
whose top boundary is touched on exactly the first two (=
touch_separation_bars - 1) consecutive window bars, touches_top is 2
while total_touches is 1; on c5b, a further top touch exactly
touch_separation_bars bars after the first counted touch raises
total_touches to 2 and touches_top to 3. -/
theorem C5_amended_touch_debounce :
    (∀ sep topLevel botLevel buf look,
      (countTouches sep topLevel botLevel buf look).top =
        (look.filter fun c => decide (topLevel - buf ≤ c.high)).length ∧
      (countTouches sep topLevel botLevel buf look).bottom =
        (look.filter fun c => decide (c.low ≤ botLevel + buf)).length) ∧
    (detect_zone s5 c5a).map Zone.touches_top = some 2 ∧
    (detect_zone s5 c5a).map Zone.total_touches = some 1 ∧
    (detect_zone s5 c5b).map Zone.touches_top = some 3 ∧
    (detect_zone s5 c5b).map Zone.total_touches = some 2 := by
  refine ⟨?_, ?_, ?_, ?_, ?_⟩
  · intro sep topLevel botLevel buf look
    have h := touchLoop_side_counts (sep : ℤ) topLevel botLevel buf look 0 (-10000) 0 0 0
    unfold countTouches
    simpa using h
  all_goals with_unfolding_all decide

/-- C1: in the backtest replay with no open position, a detected zone
and a defined ATR (nonnegative buffer), a LONG trade is opened on the
current bar iff its close exceeds high_close plus breakout_buffer_frac
times ATR, touches_top is at least 3, and the zone dwell meets the
configured minimum; the trade enters at the bar close with stop at the
bar low.  SHORT mirrors this with low_close, touches_bottom and the bar
high. -/
theorem C1_backtest_direct_breakout (s : Settings) (w : List Candle) (z : Zone) (a : ℚ)
    (bar : Candle) (hz : detect_zone s w = some z) (ha : atrLast w = some a)
    (hb : w.getLast? = some bar) (hbuf : 0 ≤ s.breakout_buffer_frac * a) :
    ((∃ t, engineEntryStep s w = some t ∧ t.side = "LONG") ↔
      (z.high_close + s.breakout_buffer_frac * a < bar.close ∧ 3 ≤ z.touches_top ∧
        s.dwell_bars ≤ z.dwell_bars)) ∧
    (∀ t, engineEntryStep s w = some t → t.side = "LONG" →
      t.entry_price = bar.close ∧ t.sl_price = bar.low) ∧
    ((∃ t, engineEntryStep s w = some t ∧ t.side = "SHORT") ↔
      (bar.close < z.low_close - s.breakout_buffer_frac * a ∧ 3 ≤ z.touches_bottom ∧
        s.dwell_bars ≤ z.dwell_bars)) ∧
    (∀ t, engineEntryStep s w = some t → t.side = "SHORT" →
      t.entry_price = bar.close ∧ t.sl_price = bar.high) := by
  have hlohi : z.low_close ≤ z.high_close := by
    obtain ⟨_, _, hmin, hmax, _, _, _, _⟩ := detect_zone_inv s w z hz
    exact qListMin_le_qListMax _ _ _ hmin hmax
  have he : engineEntryStep s w = engineBreakoutEntry s z a bar := by
    unfold engineEntryStep
    rw [hz, ha, hb]
  rw [he]
  unfold engineBreakoutEntry
  dsimp only
  by_cases h1 : z.high_close + s.breakout_buffer_frac * a < bar.close ∧ 3 ≤ z.touches_top ∧
      s.dwell_bars ≤ z.dwell_bars
  · rw [if_pos h1]
    refine ⟨⟨fun _ => h1, fun _ => ⟨⟨"LONG", bar.close, bar.low⟩, rfl, rfl⟩⟩, ?_, ?_, ?_⟩
    · intro t ht _
      injection ht with ht
      subst ht
      exact ⟨rfl, rfl⟩
    · constructor
      · rintro ⟨t, ht, hside⟩
        injection ht with ht
        subst ht
        have hs : ("LONG" : String) = "SHORT" := hside
        exact absurd hs (by decide)
      · rintro ⟨h2, _, _⟩
        exfalso
        linarith [h1.1, hlohi, hbuf]
    · intro t ht hside
      injection ht with ht
      subst ht
      have hs : ("LONG" : String) = "SHORT" := hside
      exact absurd hs (by decide)
  · rw [if_neg h1]
    by_cases h2 : bar.close < z.low_close - s.breakout_buffer_frac * a ∧ 3 ≤ z.touches_bottom ∧
        s.dwell_bars ≤ z.dwell_bars
    · rw [if_pos h2]
      refine ⟨?_, ?_, ⟨fun _ => h2, fun _ => ⟨⟨"SHORT", bar.close, bar.high⟩, rfl, rfl⟩⟩, ?_⟩
      · constructor
        · rintro ⟨t, ht, hside⟩
          injection ht with ht
          subst ht
          have hs : ("SHORT" : String) = "LONG" := hside
          exact absurd hs (by decide)
        · intro hc
          exact absurd hc h1
      · intro t ht hside
        injection ht with ht
        subst ht
        have hs : ("SHORT" : String) = "LONG" := hside
        exact absurd hs (by decide)
      · intro t ht _
        injection ht with ht
        subst ht
        exact ⟨rfl, rfl⟩
    · rw [if_neg h2]
      refine ⟨?_, ?_, ?_, ?_⟩
      · constructor
        · rintro ⟨t, ht, _⟩
          exact absurd ht (by simp)
        · intro hc
          exact absurd hc h1
      · intro t ht
        exact absurd ht (by simp)
      · constructor
        · rintro ⟨t, ht, _⟩
          exact absurd ht (by simp)
        · intro hc
          exact absurd hc h2
      · intro t ht
        exact absurd ht (by simp)

/-- Witness for C1: on the flat 50-bar series the zone, ATR and last bar
are concrete, the LONG breakout condition fails (the close cannot exceed
the window maximum), and accordingly no trade is opened. -/
theorem C1_witness :
    ((∃ t, engineEntryStep defaultSettings flat50 = some t ∧ t.side = "LONG") ↔
      (flatZone.high_close + defaultSettings.breakout_buffer_frac * 0 < flatBar.close ∧
        3 ≤ flatZone.touches_top ∧ defaultSettings.dwell_bars ≤ flatZone.dwell_bars)) :=
  (C1_backtest_direct_breakout defaultSettings flat50 flatZone 0 flatBar
    (by with_unfolding_all decide) (by with_unfolding_all decide)
    (by with_unfolding_all decide) (by with_unfolding_all decide)).1

/-- C10: every zone returned by detect_zone carries dwell_bars equal to
the configured window, so the breakout guard dwell_bars at least the
configured minimum always holds, and the insufficient-dwell branch that
would arm the awaiting-retest state can never run: the watcher state
after check_breakout either keeps its retest fields or has them
cleared, never freshly set. -/
theorem C10_dwell_guard_unreachable (s : Settings) (df : List Candle) (z : Zone)
    (hz : detect_zone s df = some z) :
    z.dwell_bars = s.dwell_bars ∧
    s.dwell_bars ≤ z.dwell_bars ∧
    ∀ sym st a perm last,
      ((check_breakout s sym st z a perm last).1.no_dwell_break_time = st.no_dwell_break_time ∧
        (check_breakout s sym st z a perm last).1.awaiting_retest_side =
          st.awaiting_retest_side) ∨
      (check_breakout s sym st z a perm last).1 = ⟨none, none⟩ := by
  have hdwell : z.dwell_bars = s.dwell_bars := (detect_zone_inv s df z hz).2.2.2.2.2.2.1
  refine ⟨hdwell, le_of_eq hdwell.symm, ?_⟩
  intro sym st a perm last
  unfold check_breakout
  dsimp only
  split_ifs with h1 h2 h3 h4
  · exact Or.inl ⟨rfl, rfl⟩
  · exact absurd (le_of_eq hdwell.symm) h2
  · exact Or.inl ⟨rfl, rfl⟩
  · exact absurd (le_of_eq hdwell.symm) h4
  · rcases check_retest_logic_state s sym st a last z perm with h | h
    · exact Or.inl ⟨by rw [h], by rw [h]⟩
    · exact Or.inr h

/-- Witness for C10: the zone of the flat series carries the configured
dwell, and a concrete watcher state is preserved by check_breakout. -/
theorem C10_witness :
    flatZone.dwell_bars = defaultSettings.dwell_bars ∧
    defaultSettings.dwell_bars ≤ flatZone.dwell_bars :=
  ⟨(C10_dwell_guard_unreachable defaultSettings flat50 flatZone
      (by with_unfolding_all decide)).1,
   (C10_dwell_guard_unreachable defaultSettings flat50 flatZone
      (by with_unfolding_all decide)).2.1⟩

/-- C6 amended: every bucket emitted by resample_ohlcv aggregates its
nonempty set of contributing bars with open of the first, max high, min
low, close of the last and summed volume; buckets with no contributing
bars are absent, and every bucket with at least one contributing bar is
present, including the trailing bucket even when it is not yet fully
covered by base bars. -/
theorem C6_amended_resample (m : ℕ) (df : List Candle) :
    (∀ b ∈ resample_ohlcv m df,
      ∃ c0 rest, df.filter (fun c => bucketLabel m c.ts == b.ts) = c0 :: rest ∧
        b.openPrice = c0.openPrice ∧
        (b.high ∈ (c0 :: rest).map Candle.high ∧
          ∀ x ∈ (c0 :: rest).map Candle.high, x ≤ b.high) ∧
        (b.low ∈ (c0 :: rest).map Candle.low ∧
          ∀ x ∈ (c0 :: rest).map Candle.low, b.low ≤ x) ∧
        ((c0 :: rest).map Candle.close).getLast? = some b.close ∧
        b.volume = ((c0 :: rest).map Candle.volume).sum) ∧
    (∀ c ∈ df, ∃ b ∈ resample_ohlcv m df, b.ts = bucketLabel m c.ts) := by
  constructor
  · intro b hb
    unfold resample_ohlcv at hb
    rw [List.mem_filterMap] at hb
    obtain ⟨lab, hlab, hagg⟩ := hb
    cases hfil : df.filter (fun c => bucketLabel m c.ts == lab) with
    | nil =>
      rw [hfil] at hagg
      exact absurd hagg (by simp [aggBucket])
    | cons c0 rest =>
      rw [hfil] at hagg
      unfold aggBucket at hagg
      injection hagg with hagg
      subst hagg
      refine ⟨c0, rest, hfil, rfl, ?_, ?_, ?_, ?_⟩
      · obtain ⟨hm, hlb, hub⟩ := foldl_qmax_spec Candle.high rest c0.high
        constructor
        · rcases hm with h | h
          · rw [List.map_cons]
            rw [h]
            exact List.mem_cons_self _ _
          · rw [List.map_cons]
            exact List.mem_cons_of_mem _ h
        · intro x hx
          rw [List.map_cons] at hx
          rcases List.mem_cons.mp hx with h | h
          · rw [h]
            exact hlb
          · exact hub x h
      · obtain ⟨hm, hub, hlb⟩ := foldl_qmin_spec Candle.low rest c0.low
        constructor
        · rcases hm with h | h
          · rw [List.map_cons]
            rw [h]
            exact List.mem_cons_self _ _
          · rw [List.map_cons]
            exact List.mem_cons_of_mem _ h
        · intro x hx
          rw [List.map_cons] at hx
          rcases List.mem_cons.mp hx with h | h
          · rw [h]
            exact hub
          · exact hlb x h
      · rw [List.map_cons]
        have hfold := foldl_last_close rest c0.close
        cases hl : (rest.map Candle.close).getLast? with
        | none =>
          have hnil : rest.map Candle.close = [] := List.getLast?_eq_none_iff.mp hl
          rw [hnil]
          have : rest.foldl (fun _ y => y.close) c0.close = c0.close := by
            rw [hfold, hl]
            rfl
          simp only [List.getLast?_singleton]
          rw [this]
        | some v =>
          obtain ⟨y, t, hmap⟩ : ∃ y t, rest.map Candle.close = y :: t := by
            cases hm2 : rest.map Candle.close with
            | nil => rw [hm2] at hl; exact absurd hl (by simp)
            | cons y t => exact ⟨y, t, rfl⟩
          rw [hmap, List.getLast?_cons_cons]
          rw [hmap] at hl
          rw [hl]
          have : rest.foldl (fun _ y => y.close) c0.close = v := by
            rw [hfold, hmap, hl]
            rfl
          rw [this]
      · rw [List.map_cons, List.sum_cons]
        exact foldl_add_volume rest c0.volume
  · intro c hc
    have hlab : bucketLabel m c.ts ∈ df.map fun x => bucketLabel m x.ts :=
      List.mem_map_of_mem _ hc
    have hded : bucketLabel m c.ts ∈ (df.map fun x => bucketLabel m x.ts).dedup :=
      List.mem_dedup.mpr hlab
    have hcfil : c ∈ df.filter fun x => bucketLabel m x.ts == bucketLabel m c.ts :=
      List.mem_filter.mpr ⟨hc, by simp⟩
    cases hfil : df.filter (fun x => bucketLabel m x.ts == bucketLabel m c.ts) with
    | nil =>
      rw [hfil] at hcfil
      exact absurd hcfil (List.not_mem_nil c)
    | cons c0 rest =>
      obtain ⟨b, hb⟩ : ∃ b, aggBucket (bucketLabel m c.ts) (c0 :: rest) = some b := ⟨_, rfl⟩
      refine ⟨b, ?_, ?_⟩
      · unfold resample_ohlcv
        rw [List.mem_filterMap]
        exact ⟨bucketLabel m c.ts, hded, by rw [hfil]; exact hb⟩
      · unfold aggBucket at hb
        injection hb with hb
        rw [← hb]

/-- Counterexample for C6: a single base bar at time 1 resampled into
2-unit buckets lands in the right-closed bucket (0, 2] labeled 2; that
trailing bucket is not fully covered (no base bar at time 2 exists), yet
it is present in the output; only empty buckets are dropped. -/
theorem C6_counterexample_trailing_bucket_present :
    resample_ohlcv 2 ex6 = [⟨2, 7, 9, 5, 8, 3⟩] ∧
    ex6.map Candle.ts = [1] ∧
    ¬ 2 ∈ ex6.map Candle.ts := by
  with_unfolding_all decide

/-- Witness for C6 amended: the half-covered trailing bucket of ex6 is
present in the resampled output. -/
theorem C6_witness :
    ∃ b ∈ resample_ohlcv 2 ex6, b.ts = bucketLabel 2 1 :=
  (C6_amended_resample 2 ex6).2 ⟨1, 7, 9, 5, 8, 3⟩ (by with_unfolding_all decide)

/-- C8 (code bug): _check_breakout passes the current trend permission,
not the remembered breakout side, as the side argument of
_check_retest_logic; with permission NONE a bar meeting every
retest-entry condition of the remembered LONG breakout inside the
window yields no entry, while the identical state under permission LONG
enters at the bar close with stop at the confirming bar low. -/
theorem C8_retest_gated_by_permission :
    check_breakout defaultSettings "SYM" st8 z8 1 "NONE" bar8 = (st8, none) ∧
    check_breakout defaultSettings "SYM" st8 z8 1 "LONG" bar8 =
      (⟨none, none⟩, some ⟨"SYM", "LONG", 506/5, 201/2, 20, false⟩) ∧
    st8.awaiting_retest_side = some "LONG" ∧
    st8.no_dwell_break_time = some 0 ∧
    bar8.low ≤ z8.high_close ∧ z8.low_close ≤ bar8.high ∧
    z8.high_close + defaultSettings.breakout_buffer_frac * 1 < bar8.close ∧
    bar8.ts ≤ 0 + 5 * defaultSettings.retest_window_bars := by
  with_unfolding_all decide

/-- C9 (code bug): with a zero entry-to-stop distance the computed
quantity is 0 and _execute_trade returns early with a warning, but
SymbolWatcher.run has already incremented the shared open-position
counter and committed open_position, and neither is rolled back. -/
theorem C9_zero_quantity_leaves_partial_state :
    calculate_position_size 1000 5 3 100 100 true = 0 ∧
    commitEntry ⟨0, 3⟩ pos9 (calculate_position_size 1000 5 3 100 100 true) =
      ⟨⟨1, 3⟩, some pos9, false⟩ := by
  with_unfolding_all decide

end MtfBreakout
